import Mathlib

/-!
Verification development for the discogs-scraper incremental
synchronization and enrichment pipeline.  The definitions below are
shallow embeddings of the Python functions in `discogs_scraper.py`,
`utils.py` and `db_handler.py`; comments cite the functions (and line
numbers) they are translated from.  I/O effects (network requests, file
writes, sleeps) are made explicit as data: network requests become
`NetCall` values, written pages become list entries, sleeps become
accumulated durations.
-/

namespace Py

/-- Python `str.lower` restricted to ASCII.  Characters outside the
ASCII uppercase range are left unchanged by this model; every use below
is insensitive to that restriction because any character that is not
lowercase ASCII is subsequently filtered or compared bytewise. -/
def lowerChar (c : Char) : Char :=
  if 65 ≤ c.toNat && c.toNat ≤ 90 then Char.ofNat (c.toNat + 32) else c

/-- `s.lower()` (ASCII model). -/
def pyLower (s : String) : String := ⟨s.data.map lowerChar⟩

/-- Python `needle in hay` for strings: substring containment. -/
def isSubstr (needle : List Char) : List Char → Bool
  | [] => needle.isEmpty
  | c :: rest => needle.isPrefixOf (c :: rest) || isSubstr needle rest

/-- Python `\s` / `str.strip` whitespace (ASCII whitespace model):
space, tab, newline, carriage return, vertical tab, form feed. -/
def isPySpace (c : Char) : Bool :=
  c.toNat = 32 || c.toNat = 9 || c.toNat = 10 ||
  c.toNat = 13 || c.toNat = 11 || c.toNat = 12

/-- Python `\d` on ASCII digits. -/
def isPyDigit (c : Char) : Bool := 48 ≤ c.toNat && c.toNat ≤ 57

end Py

namespace Utils

open Py

/-! ### `utils.sanitize_slug` (utils.py lines 19-73) -/

/-- A character allowed to survive `re.sub(r'[^a-z0-9]+', '-', slug)`:
lowercase ASCII letter or ASCII digit. -/
def isAllowed (c : Char) : Bool :=
  (97 ≤ c.toNat && c.toNat ≤ 122) || (48 ≤ c.toNat && c.toNat ≤ 57)

/-- Helper for `re.sub(r'\s*\(\d+\)\s*$', '', text)`: the argument is the
reversed character list; a matching suffix (trailing whitespace, a
parenthesised nonempty digit group, and the whitespace run before it) is
removed. -/
def dropParenSuffixRev (l : List Char) : List Char :=
  match l.dropWhile isPySpace with
  | ')' :: rest =>
    match rest.dropWhile isPyDigit, rest.takeWhile isPyDigit with
    | '(' :: rest3, _ :: _ => rest3.dropWhile isPySpace
    | _, _ => l
  | _ => l

/-- `re.sub(r'\s*\(\d+\)\s*$', '', text)` (utils.py line 25). -/
def removeTrailingParen (l : List Char) : List Char :=
  (dropParenSuffixRev l.reverse).reverse

/-- The special-character table of `sanitize_slug` (utils.py lines
31-62).  The source applies the thirty `str.replace` calls one after the
other; since every replacement output is plain ASCII and never a key of
a later replacement, a single simultaneous pass is equivalent. -/
def replacements : List (Char × List Char) :=
  [('ö', ['o']), ('ä', ['a']), ('ü', ['u']), ('ß', ['s', 's']),
   ('æ', ['a', 'e']), ('ø', ['o']), ('å', ['a']), ('é', ['e']),
   ('è', ['e']), ('ê', ['e']), ('ë', ['e']), ('á', ['a']),
   ('à', ['a']), ('â', ['a']), ('ã', ['a']), ('ñ', ['n']),
   ('ó', ['o']), ('ò', ['o']), ('ô', ['o']), ('õ', ['o']),
   ('í', ['i']), ('ì', ['i']), ('î', ['i']), ('ï', ['i']),
   ('ú', ['u']), ('ù', ['u']), ('û', ['u']), ('ý', ['y']),
   ('ÿ', ['y']), ('ç', ['c'])]

/-- Apply the replacement table (utils.py lines 64-65). -/
def applyReplacements (l : List Char) : List Char :=
  l.flatMap fun c =>
    match replacements.lookup c with
    | some r => r
    | none => [c]

/-- `re.sub(r'[^a-z0-9]+', '-', slug)` (utils.py line 68): every maximal
run of characters outside `[a-z0-9]` becomes a single hyphen.  The flag
records whether the current position continues such a run. -/
def dashAux : Bool → List Char → List Char
  | _, [] => []
  | inRun, c :: rest =>
    if isAllowed c then c :: dashAux false rest
    else if inRun then dashAux true rest
    else '-' :: dashAux true rest

/-- The character stripped by `slug.strip('-')`. -/
def isDash (c : Char) : Bool := c = '-'

/-- `slug.strip('-')` (utils.py line 71). -/
def trimDashes (l : List Char) : List Char :=
  ((l.dropWhile isDash).reverse.dropWhile isDash).reverse

/-- `utils.sanitize_slug` (utils.py lines 19-73): drop a trailing
parenthesised number, lowercase, replace special characters, turn
non-alphanumeric runs into single hyphens, and strip edge hyphens. -/
def sanitize_slug (s : String) : String :=
  let t := removeTrailingParen s.data
  let lowered := t.map lowerChar
  let replaced := applyReplacements lowered
  let dashed := dashAux false replaced
  ⟨trimDashes dashed⟩

end Utils

namespace Py

/-! ### `difflib.SequenceMatcher` (used by both Apple Music clients)

The queries compared are short (album/artist names), far below the
200-character `autojunk` threshold, and no junk predicate is supplied,
so the plain algorithm applies: repeatedly find the longest matching
block (earliest in `a`, then earliest in `b`, among the maximal ones)
and recurse on both sides; `ratio` is twice the total matched length
divided by the total length. -/

/-- Ascending positions of `c` in `b` (difflib's `b2j` entry for `c`). -/
def positionsOf (c : Char) (b : List Char) : List Nat :=
  (b.enum.filter (fun p => p.2 = c)).map (fun p => p.1)

/-- Lookup in the `j2len` association list, defaulting to zero. -/
def j2lenGet (m : List (Nat × Nat)) (k : Nat) : Nat :=
  match m.lookup k with
  | some v => v
  | none => 0

/-- Inner loop of `find_longest_match`: walk the ascending occurrence
list `js` of `a[i]` in `b`, extending runs recorded in `prev` and
updating the best block `(besti, bestj, bestsize)` on strictly longer
runs.  Mirrors difflib's `for j in b2j.get(a[i], [])` loop, including
the `continue` below `blo` and the `break` at `bhi`. -/
def flmScanJ (i blo bhi : Nat) (prev : List (Nat × Nat)) :
    List Nat → List (Nat × Nat) → Nat × Nat × Nat → List (Nat × Nat) × (Nat × Nat × Nat)
  | [], acc, best => (acc, best)
  | j :: rest, acc, best =>
    if j < blo then flmScanJ i blo bhi prev rest acc best
    else if bhi ≤ j then (acc, best)
    else
      let k := j2lenGet prev (j - 1) + 1
      let best' := if best.2.2 < k then (i + 1 - k, j + 1 - k, k) else best
      flmScanJ i blo bhi prev rest ((j, k) :: acc) best'

/-- `SequenceMatcher.find_longest_match(alo, ahi, blo, bhi)` with no
junk: returns `(besti, bestj, bestsize)`.  (The final junk-extension
loops of difflib are no-ops when no junk exists, because the dynamic
program already records every maximal run.) -/
def findLongestMatch (a b : List Char) (alo ahi blo bhi : Nat) : Nat × Nat × Nat :=
  ((List.range' alo (ahi - alo)).foldl
    (fun (st : List (Nat × Nat) × (Nat × Nat × Nat)) i =>
      flmScanJ i blo bhi st.1 (positionsOf (a.getD i ' ') b) [] st.2)
    ([], (alo, blo, 0))).2

/-- Total size of the matching blocks of `get_matching_blocks`,
computed by the divide-and-conquer recursion; the fuel is an upper
bound on the recursion depth (each side of a split is strictly
smaller). -/
def matchTotalAux (a b : List Char) : Nat → Nat × Nat × Nat × Nat → Nat
  | 0, _ => 0
  | fuel + 1, (alo, ahi, blo, bhi) =>
    let r := findLongestMatch a b alo ahi blo bhi
    let i := r.1
    let j := r.2.1
    let k := r.2.2
    if k = 0 then 0
    else
      k + matchTotalAux a b fuel (alo, i, blo, j) +
        matchTotalAux a b fuel (i + k, ahi, j + k, bhi)

/-- Sum of matched block sizes between `a` and `b`. -/
def matchTotal (a b : List Char) : Nat :=
  matchTotalAux a b (a.length + b.length + 1) (0, a.length, 0, b.length)

/-- `SequenceMatcher(None, q, x).ratio() > SequenceMatcher(None, q, y).ratio()`,
decided by cross-multiplying the exact rationals `2·M/(|q|+|x|)`;
this models Python's comparison of the two float ratios. -/
def ratioGt (q x y : List Char) : Bool :=
  matchTotal q x * (q.length + y.length) > matchTotal q y * (q.length + x.length)

end Py

/-- One Apple Music search result: the fields of
`result['attributes']` that the selection logic reads (the rest of the
attribute bag is irrelevant to ranking and elided). -/
structure AMCandidate where
  name : String
  artistName : String
  deriving Repr, DecidableEq

/-- Python `max(results, key=lambda x: ratio(query, x.name))`: the first
candidate attaining the maximal similarity (Python's `max` keeps the
earliest maximum). -/
def pickBySimilarity (query : String) : List AMCandidate → Option AMCandidate
  | [] => none
  | c :: rest =>
    some (rest.foldl
      (fun best x =>
        if Py.ratioGt (Py.pyLower query).data (Py.pyLower x.name).data
            (Py.pyLower best.name).data then x else best)
      c)

namespace Scraper

/-- `discogs_scraper.get_apple_music_data` result selection
(discogs_scraper.py lines 226-237): when the response carries data, the
best match is simply the similarity maximum over all candidates — no
denylist filtering and no exact-match shortcut. -/
def get_apple_music_data (query : String) (results : List AMCandidate) :
    Option AMCandidate :=
  pickBySimilarity query results

end Scraper

namespace Utils

/-- The tribute/cover/karaoke markers excluded by
`utils.search_apple_music` (utils.py lines 140-144). -/
def deniedMarkers : List String :=
  ["tribute", "cover", "karaoke", "performed by", "in the style of"]

/-- Whether a candidate name contains a denylisted marker
(case-insensitively). -/
def isDenied (name : String) : Bool :=
  deniedMarkers.any fun d => Py.isSubstr d.data (Py.pyLower name).data

/-- `utils.search_apple_music` result selection (utils.py lines
132-170): drop denylisted candidates, prefer the first exact
case-insensitive name match, otherwise fall back to the similarity
maximum over the filtered candidates. -/
def search_apple_music (query : String) (results : List AMCandidate) :
    Option AMCandidate :=
  if results.isEmpty then none
  else
    let filtered := results.filter fun r => !(isDenied r.name)
    if filtered.isEmpty then none
    else
      match filtered.filter (fun r => Py.pyLower r.name = Py.pyLower query) with
      | e :: _ => some e
      | [] => pickBySimilarity query filtered

end Utils

namespace Scraper

/-! ### `discogs_scraper.tidy_text` (discogs_scraper.py lines 314-334)

Each `re.sub` call is modelled by a left-to-right scanner: at every
position it first tries to match the pattern there (replacing and
resuming after the match) and otherwise emits one character, exactly as
the regex engine advances.  The lazy `.*?` groups never cross a
newline because `.` does not match `\n`. -/

/-- Generic left-to-right substitution driver.  `step l` returns
`some (replacement, rest)` when the pattern matches at the head of `l`.
Every pattern below consumes at least two characters on a match, so a
fuel of `length + 1` always suffices. -/
def scanSub (step : List Char → Option (List Char × List Char)) :
    Nat → List Char → List Char
  | _, [] => []
  | 0, l => l
  | fuel + 1, c :: rest =>
    match step (c :: rest) with
    | some (rep, after) => rep ++ scanSub step fuel after
    | none => c :: scanSub step fuel rest

/-- Find the lazy body of `(.*?)` followed by `close`: the shortest
newline-free prefix after which `close` matches; returns the body and
the remainder after `close`. -/
def findClose (close : List Char) : List Char → Option (List Char × List Char)
  | [] => none
  | c :: rest =>
    if close.isPrefixOf (c :: rest) then some ([], (c :: rest).drop close.length)
    else if c = '\n' then none
    else
      match findClose close rest with
      | some (mid, after) => some (c :: mid, after)
      | none => none

/-- One match attempt of `\[b\](.*?)\[/b\]` → `**\1**`. -/
def boldStep (l : List Char) : Option (List Char × List Char) :=
  if ("[b]".data).isPrefixOf l then
    match findClose "[/b]".data (l.drop 3) with
    | some (mid, after) => some ('*' :: '*' :: mid ++ ['*', '*'], after)
    | none => none
  else none

/-- One match attempt of `\[i\](.*?)\[/i\]` → `*\1*`. -/
def italicStep (l : List Char) : Option (List Char × List Char) :=
  if ("[i]".data).isPrefixOf l then
    match findClose "[/i]".data (l.drop 3) with
    | some (mid, after) => some ('*' :: mid ++ ['*'], after)
    | none => none
  else none

/-- Body of `\[(a=[^\]]+)\]`: everything up to the first `]`, which must
be nonempty. -/
def findRightBracket : List Char → Option (List Char × List Char)
  | [] => none
  | c :: rest =>
    if c = ']' then some ([], rest)
    else
      match findRightBracket rest with
      | some (mid, after) => some (c :: mid, after)
      | none => none

/-- One match attempt of `\[(a=[^\]]+)\]` → removal. -/
def aTagStep (l : List Char) : Option (List Char × List Char) :=
  if ("[a=".data).isPrefixOf l then
    match findRightBracket (l.drop 3) with
    | some (_ :: _, after) => some ([], after)
    | _ => none
  else none

/-- One match attempt of `\[.*?\]` → removal. -/
def bracketStep (l : List Char) : Option (List Char × List Char) :=
  match l with
  | '[' :: rest =>
    match findClose [']'] rest with
    | some (_, after) => some ([], after)
    | none => none
  | _ => none

/-- One match attempt of `\(.*?\)` → removal. -/
def parenStep (l : List Char) : Option (List Char × List Char) :=
  match l with
  | '(' :: rest =>
    match findClose [')'] rest with
    | some (_, after) => some ([], after)
    | none => none
  | _ => none

/-- One match attempt of `\s{2,}` → a single space (greedy run). -/
def wsStep (l : List Char) : Option (List Char × List Char) :=
  match l with
  | c :: d :: rest =>
    if Py.isPySpace c && Py.isPySpace d then
      some ([' '], (c :: d :: rest).dropWhile Py.isPySpace)
    else none
  | _ => none

/-- `text.replace('"', '\\"')`. -/
def escapeQuoteChars (l : List Char) : List Char :=
  l.flatMap fun c => if c = '"' then ['\\', '"'] else [c]

/-- Python `str.strip()`. -/
def pyStrip (l : List Char) : List Char :=
  ((l.dropWhile Py.isPySpace).reverse.dropWhile Py.isPySpace).reverse

/-- `discogs_scraper.tidy_text` (lines 314-334): escape double quotes,
convert `[b]`/`[i]` tags to markdown, remove `[a=...]` artist tags, all
remaining bracketed tags and parenthesised text, collapse whitespace
runs, and strip. -/
def tidy_text (s : String) : String :=
  let l0 := escapeQuoteChars s.data
  let l1 := scanSub boldStep (l0.length + 1) l0
  let l2 := scanSub italicStep (l1.length + 1) l1
  let l3 := scanSub aTagStep (l2.length + 1) l2
  let l4 := scanSub bracketStep (l3.length + 1) l3
  let l5 := scanSub parenStep (l4.length + 1) l4
  let l6 := scanSub wsStep (l5.length + 1) l5
  ⟨pyStrip l6⟩

/-- The summary choice of `create_artist_markdown_file`
(discogs_scraper.py lines 547-552): tidy both narrative candidates and
keep the Wikipedia text only when its tidied form is strictly longer
than the tidied Discogs profile. -/
def chooseSummary (profile wikipediaSummary : String) : String :=
  let p := tidy_text profile
  let w := tidy_text wikipediaSummary
  if p.length < w.length then w else p

/-! ### Data model of the sync pipeline (discogs_scraper.py / db_handler.py)

Network traffic is explicit: every request the orchestrator issues while
handling an item is recorded as a `NetCall` tagged with that item's
release id.  Provider responses are scripted inside the items (what the
network *would* answer), so one run of the model corresponds to one run
of the scraper against fixed provider behaviour.  Rendering-only fields
of the payloads (genres, labels, track lists, videos, images, ...) are
carried by the real code straight into the output dictionary and play
no role in any claim, so they are elided here. -/

/-- A network request issued while processing the item with the given
release id. -/
inductive NetCall where
  /-- The Discogs release fetch triggered by the attribute accesses in
  `process_item` (lines 753-788). -/
  | primary (rid : Nat)
  /-- `get_apple_music_data` (line 796). -/
  | appleMusic (rid : Nat)
  /-- The Discogs artist search / artist fetch in `get_artist_info`
  (lines 692-699). -/
  | discogsArtist (rid : Nat)
  /-- The Wikipedia lookup in `get_artist_info` (line 703). -/
  | wikipedia (rid : Nat)
  /-- `get_spotify_id` (line 848). -/
  | spotify (rid : Nat)
  deriving Repr, DecidableEq

/-- The release id a call was made for. -/
def NetCall.rid : NetCall → Nat
  | .primary r => r
  | .appleMusic r => r
  | .discogsArtist r => r
  | .wikipedia r => r
  | .spotify r => r

/-- The artist dictionary built by `get_artist_info` (lines 708-719);
the slug, aliases, members and image fields are not consulted by any
claim and are elided. -/
structure ArtistInfo where
  id : Nat
  name : String
  profile : String
  wikipediaSummary : Option String
  wikipediaUrl : Option String
  deriving Repr, DecidableEq

/-- The Apple Music attribute fields read by `process_item`
(lines 819-822). -/
structure AppleAttrs where
  artistBio : Option String
  artistWikipediaUrl : Option String
  deriving Repr, DecidableEq

/-- The scripted provider responses for one release: what each upstream
would answer if asked.  `artistSearch = none` models a search that
raises, returns no results, or otherwise makes `get_artist_info` return
`None`. -/
structure ReleaseData where
  artistName : String
  albumTitle : String
  appleResult : Option AppleAttrs
  artistSearch : Option ArtistInfo
  spotifyResult : Option String
  deriving Repr, DecidableEq

/-- Outcome of the lazy per-item Discogs release fetch, which happens
inside `process_item`'s `try` (the attribute accesses on lines
753-788).  `raises` is a data-shape or availability error; `throttled`
is an `HTTPError` 429 carrying the provider's retry-after.  Both are
exceptions raised inside the `try`, and the blanket `except Exception`
at line 859 does not discriminate between them. -/
inductive PrimaryOutcome where
  | ok (d : ReleaseData)
  | raises
  | throttled (retryAfterSeconds : Nat)
  deriving Repr, DecidableEq

/-- One collection item, with the scripted outcome of its primary
fetch. -/
structure Item where
  releaseId : Nat
  primary : PrimaryOutcome
  deriving Repr, DecidableEq

/-- The persisted album record (the `item_data` dictionary of
`process_item`, lines 827-853, restricted to the fields the claims
concern). -/
structure Record where
  releaseId : Nat
  artistName : String
  albumTitle : String
  spotifyId : Option String
  artistInfo : Option ArtistInfo
  wikipediaSummary : Option String
  wikipediaUrl : Option String
  appleMusicAttributes : Option AppleAttrs
  deriving Repr, DecidableEq

/-- The persistent state: the `releases` table of `collection_cache.db`
and the `skip_releases.txt` file (db_handler.py). -/
structure Store where
  releases : List (Nat × Record)
  skipFile : List Nat
  deriving Repr, DecidableEq

/-- `DatabaseHandler.get_release` (db_handler.py lines 66-76). -/
def Store.get_release (s : Store) (rid : Nat) : Option Record :=
  s.releases.lookup rid

/-- `DatabaseHandler.save_release` (db_handler.py lines 57-64):
`INSERT OR REPLACE` keyed by release id. -/
def Store.save_release (s : Store) (rid : Nat) (r : Record) : Store :=
  { s with releases := (rid, r) :: s.releases.filter fun p => p.1 != rid }

/-- `DatabaseHandler.add_skip_release` (db_handler.py lines 96-103):
append the id to `skip_releases.txt`. -/
def Store.add_skip_release (s : Store) (rid : Nat) : Store :=
  { s with skipFile := s.skipFile ++ [rid] }

/-- Which API credentials the run obtained (main, lines 940-946). -/
structure Env where
  spotifyToken : Bool
  appleToken : Bool
  deriving Repr, DecidableEq

/-- `get_artist_info` (lines 681-738): the lookup is short-circuited
for the sentinel name `"various"` (case-insensitive equality, line
686); otherwise the Discogs search (and, when it yields a result, the
Wikipedia lookup) is performed and the scripted answer returned. -/
def get_artist_info (rid : Nat) (artistName : String)
    (searchResult : Option ArtistInfo) : Option ArtistInfo × List NetCall :=
  if Py.pyLower artistName = "various" then (none, [])
  else
    match searchResult with
    | none => (none, [NetCall.discogsArtist rid])
    | some ai => (some ai, [NetCall.discogsArtist rid, NetCall.wikipedia rid])

/-- `create_artist_markdown_file` (lines 514-567) as the pipeline sees
it: it computes the page summary via `chooseSummary`.  When the artist's
`artist_wikipedia_summary` is `None` the call to `tidy_text` on line 549
raises (`None.replace`), which the model returns as an error.  Image
downloads and template rendering have no effect on any claim and are
elided. -/
def create_artist_markdown_file (ai : ArtistInfo) : Except Unit (Nat × String) :=
  match ai.wikipediaSummary with
  | none => Except.error ()
  | some w => Except.ok (ai.id, chooseSummary ai.profile w)

/-- `process_artist` (lines 437-449): emit the artist page only when
the artist id has not been processed in this run, then record the id. -/
def process_artist (ai : ArtistInfo) (pa : List Nat) :
    Except Unit (List Nat × List (Nat × String)) :=
  if ai.id ∈ pa then Except.ok (pa, [])
  else
    match create_artist_markdown_file ai with
    | Except.error e => Except.error e
    | Except.ok page => Except.ok (pa ++ [ai.id], [page])

/-- Result of one `process_item` call. -/
structure PIResult where
  result : Option Record
  store : Store
  processedArtists : List Nat
  emissions : List (Nat × String)
  calls : List NetCall
  deriving Repr, DecidableEq

/-- `process_item` (lines 740-862).  Faithful control flow:
cache hit returns immediately (lines 747-750); any exception inside the
`try` adds the release to the skip file and returns `None` (lines
859-862); the Apple Music search runs only with a token and a
non-"various" artist (line 794); `get_artist_info` runs next (line
809); `process_artist` runs before the Apple Music bio overwrite (lines
816-822); building the output dictionary evaluates `get_spotify_id`
(line 848) before subscripting `artist_info` (line 850), so a missing
artist info still triggers the Spotify lookup and then raises. -/
def process_item (env : Env) (item : Item) (db : Store) (pa : List Nat) :
    PIResult :=
  let rid := item.releaseId
  match db.get_release rid, item.primary with
  | some cached, _ =>
    { result := some cached, store := db, processedArtists := pa,
      emissions := [], calls := [] }
  | none, PrimaryOutcome.raises =>
      { result := none, store := db.add_skip_release rid,
        processedArtists := pa, emissions := [], calls := [NetCall.primary rid] }
  | none, PrimaryOutcome.throttled _ =>
      -- the 429 is an exception like any other to the handler at line
      -- 859: the release is skip-listed, never slept on, never retried
      { result := none, store := db.add_skip_release rid,
        processedArtists := pa, emissions := [], calls := [NetCall.primary rid] }
  | none, PrimaryOutcome.ok d =>
      let appleGuard :=
        env.appleToken && !(Py.isSubstr "various".data (Py.pyLower d.artistName).data)
      let appleAttrs : Option AppleAttrs := if appleGuard then d.appleResult else none
      let appleCalls : List NetCall :=
        if appleGuard then [NetCall.appleMusic rid] else []
      let artistStep := get_artist_info rid d.artistName d.artistSearch
      let callsSoFar := NetCall.primary rid :: appleCalls ++ artistStep.2
      match artistStep.1 with
      | none =>
        let spotifyCalls := if env.spotifyToken then [NetCall.spotify rid] else []
        { result := none, store := db.add_skip_release rid,
          processedArtists := pa, emissions := [],
          calls := callsSoFar ++ spotifyCalls }
      | some ai =>
        match process_artist ai pa with
        | Except.error _ =>
          { result := none, store := db.add_skip_release rid,
            processedArtists := pa, emissions := [], calls := callsSoFar }
        | Except.ok (pa', ems) =>
          let ai' :=
            match appleAttrs with
            | none => ai
            | some attrs =>
              let ai1 :=
                match attrs.artistBio with
                | some b => { ai with wikipediaSummary := some b }
                | none => ai
              match attrs.artistWikipediaUrl with
              | some u => { ai1 with wikipediaUrl := some u }
              | none => ai1
          let spotifyId : Option String :=
            if env.spotifyToken then d.spotifyResult else none
          let spotifyCalls : List NetCall :=
            if env.spotifyToken then [NetCall.spotify rid] else []
          let record : Record :=
            { releaseId := rid, artistName := d.artistName,
              albumTitle := d.albumTitle, spotifyId := spotifyId,
              artistInfo := some ai',
              wikipediaSummary := ai'.wikipediaSummary,
              wikipediaUrl := ai'.wikipediaUrl,
              appleMusicAttributes := appleAttrs }
          { result := some record, store := db.save_release rid record,
            processedArtists := pa', emissions := ems,
            calls := callsSoFar ++ spotifyCalls }

/-- Result of the per-item `while True` handler, with its retry
accounting made explicit: total seconds slept in 429 backoff, attempts
made, and the release id each attempt requested. -/
structure RetryResult where
  result : Option Record
  store : Store
  processedArtists : List Nat
  emissions : List (Nat × String)
  calls : List NetCall
  sleepTime : Nat
  attempts : Nat
  requests : List Nat
  deriving Repr, DecidableEq

/-- The `while True` handler of `main` around `process_item` (lines
1056-1068).  Its 429 branch (sleep 60 seconds, retry the same item) is
unreachable code: the release fetch happens inside `process_item`'s own
`try` (lines 753-788) and the blanket `except Exception` at line 859
already turns any exception — an `HTTPError` 429 included — into a
skip-list entry and a `None` result, while the statements before that
`try` (the lazy `item.release` wrapper, `release.id`, and the sqlite
cache read, lines 744-748) issue no network request.  The loop body
therefore always runs exactly once: one attempt, no retry, no sleep. -/
def retryLoop (env : Env) (item : Item) (db : Store) (pa : List Nat) :
    RetryResult :=
  let p := process_item env item db pa
  { result := p.result, store := p.store,
    processedArtists := p.processedArtists, emissions := p.emissions,
    calls := p.calls, sleepTime := 0, attempts := 1,
    requests := [item.releaseId] }

/-- Response of the initial collection-listing request (lines 963-983). -/
inductive CollectionResponse where
  | ok (count : Nat)
  | throttled (retryAfterHeader : Option Nat)
  | otherError
  deriving Repr, DecidableEq

/-- Outcome of the collection fetch: the value or the propagated
exception, together with how many retries were issued and how long the
handler slept. -/
structure CollectionFetchOutcome where
  result : Except String Nat
  retries : Nat
  sleepTime : Nat
  deriving Repr

/-- The `try/except` around the collection listing (lines 963-983): a
429 makes the handler read the `Retry-After` header (defaulting to the
configured delay), log it, and re-raise — no sleep and no retry are
performed; any other HTTP error is also re-raised. -/
def fetchCollection (delay : Nat) : CollectionResponse → CollectionFetchOutcome
  | CollectionResponse.ok n =>
    { result := Except.ok n, retries := 0, sleepTime := 0 }
  | CollectionResponse.throttled h =>
    let _retryAfter := h.getD delay
    { result := Except.error "HTTPError 429", retries := 0, sleepTime := 0 }
  | CollectionResponse.otherError =>
    { result := Except.error "HTTPError", retries := 0, sleepTime := 0 }

/-- The mutable state of one `main` run: the persistent store, the
content of `last_processed_index.txt`, the per-run artist deduplication
set, the artist pages and album pages written, the network calls issued
and the seconds slept in 429 backoff. -/
structure MainState where
  store : Store
  checkpoint : Nat
  processedArtists : List Nat
  emissions : List (Nat × String)
  albums : List Nat
  calls : List NetCall
  sleepTime : Nat
  deriving Repr, DecidableEq

/-- One iteration of the `for index, item in enumerate(collection)`
loop (lines 1028-1087).  Items below the loaded resume index are fast
forwarded (lines 1029-1032); items in the loaded skip set `continue`
before the checkpoint write (lines 1040-1043); otherwise the cache is
consulted (line 1049), the retry loop runs on a miss, the album page is
written when data exists (lines 1075-1076) and the checkpoint file is
set to the current index (lines 1079-1080).  Nothing inside the model
raises, so the outer `except` (lines 1084-1087) is never taken. -/
def loopBody (env : Env) (lastProcessedIndex : Nat) (skipSet : List Nat)
    (st : MainState) (ie : Nat × Item) : MainState :=
  if ie.1 < lastProcessedIndex then st
  else if ie.2.releaseId ∈ skipSet then st
  else
    match st.store.get_release ie.2.releaseId with
    | some cached =>
      { st with albums := st.albums ++ [cached.releaseId], checkpoint := ie.1 }
    | none =>
      let r := retryLoop env ie.2 st.store st.processedArtists
      let st' : MainState :=
        { store := r.store, checkpoint := ie.1,
          processedArtists := r.processedArtists,
          emissions := st.emissions ++ r.emissions,
          albums := st.albums, calls := st.calls ++ r.calls,
          sleepTime := st.sleepTime + r.sleepTime }
      match r.result with
      | some rec => { st' with albums := st'.albums ++ [rec.releaseId] }
      | none => st'

/-- The item walk, indices starting at `n` (`enumerate(collection)`). -/
def runItems (env : Env) (lastProcessedIndex : Nat) (skipSet : List Nat) :
    Nat → List Item → MainState → MainState
  | _, [], st => st
  | n, item :: rest, st =>
    runItems env lastProcessedIndex skipSet (n + 1) rest
      (loopBody env lastProcessedIndex skipSet st (n, item))

/-- One full run of the `main` item loop (lines 1027-1092): walk every
item from index 0, then zero out the checkpoint file on completion. -/
def runMain (env : Env) (lastProcessedIndex : Nat) (skipSet : List Nat)
    (items : List Item) (st : MainState) : MainState :=
  { runItems env lastProcessedIndex skipSet 0 items st with checkpoint := 0 }

/-- The network calls made for a given release id. -/
def callsFor (rid : Nat) (l : List NetCall) : List NetCall :=
  l.filter fun c => c.rid == rid

/-- How many artist pages were emitted for a given artist id. -/
def countEmissions (aid : Nat) (l : List (Nat × String)) : Nat :=
  (l.filter fun e => e.1 == aid).length

/-- The Discogs artist lookups among a list of calls. -/
def artistFetches (l : List NetCall) : List NetCall :=
  l.filter fun c =>
    match c with
    | NetCall.discogsArtist _ => true
    | _ => false

end Scraper

namespace Fixtures

open Scraper

/-- An environment with an Apple Music token but no Spotify token. -/
def env : Env := { spotifyToken := false, appleToken := true }

/-- An empty persistent store. -/
def store0 : Store := { releases := [], skipFile := [] }

/-- The state at the start of a fresh run (empty dedup set, no pages
written, no calls issued). -/
def state0 : MainState :=
  { store := store0, checkpoint := 0, processedArtists := [], emissions := [],
    albums := [], calls := [], sleepTime := 0 }

/-- An ordinary artist answer from the Discogs search. -/
def bandInfo : ArtistInfo :=
  { id := 7, name := "band", profile := "p", wikipediaSummary := some "wwwww",
    wikipediaUrl := some "u" }

/-- Scripted provider answers for an ordinary release by `bandInfo`. -/
def bandData : ReleaseData :=
  { artistName := "band", albumTitle := "alb", appleResult := none,
    artistSearch := some bandInfo, spotifyResult := none }

/-- A successfully processable item. -/
def itemA : Item := { releaseId := 1, primary := PrimaryOutcome.ok bandData }

/-- A second release by the same artist. -/
def itemB : Item :=
  { releaseId := 2,
    primary := PrimaryOutcome.ok { bandData with albumTitle := "alb2" } }

/-- An item whose release id sits in the skip set of the fixtures. -/
def itemSkip : Item := { releaseId := 30, primary := PrimaryOutcome.ok bandData }

/-- An item whose primary fetch raises a permanent failure. -/
def itemFail : Item := { releaseId := 3, primary := PrimaryOutcome.raises }

/-- An uncached item whose primary fetch is answered with
`Throttled(retryAfter=5)` (HTTP 429). -/
def throttledItem : Item := { releaseId := 601, primary := PrimaryOutcome.throttled 5 }

/-- A mid-run state: items 0 and 1 processed, checkpoint file at 1. -/
def stateMid : MainState := { state0 with checkpoint := 1 }

/-- A cached record. -/
def cachedRec : Record :=
  { releaseId := 9, artistName := "a", albumTitle := "t", spotifyId := none,
    artistInfo := none, wikipediaSummary := none, wikipediaUrl := none,
    appleMusicAttributes := none }

/-- A store already holding `cachedRec`. -/
def cachedStore : Store := { releases := [(9, cachedRec)], skipFile := [] }

/-- An item whose release id is already cached. -/
def itemCached : Item := { releaseId := 9, primary := PrimaryOutcome.ok bandData }

/-- A compilation credited to the `Various` sentinel artist. -/
def variousItem : Item :=
  { releaseId := 501,
    primary := PrimaryOutcome.ok
      { artistName := "Various", albumTitle := "comp",
        appleResult := none, artistSearch := some bandInfo,
        spotifyResult := none } }

/-- A ten-character Apple Music artist biography. -/
def bio10 : String := "bbbbbbbbbb"

/-- A fifty-character Wikipedia summary. -/
def wiki50 : String :=
  "wwwwwwwwwwwwwwwwwwwwwwwwwwwwwwwwwwwwwwwwwwwwwwwwww"

/-- An item whose artist has both narrative sources: a short Apple
Music biography and a long Wikipedia summary. -/
def itemBio : Item :=
  { releaseId := 11,
    primary := PrimaryOutcome.ok
      { artistName := "band", albumTitle := "alb",
        appleResult := some { artistBio := some bio10,
                              artistWikipediaUrl := none },
        artistSearch := some { bandInfo with
                               wikipediaSummary := some wiki50 },
        spotifyResult := none } }

end Fixtures

open Scraper

/-- Claim C1 counterexample: in a run resuming at index 0, the item at
position 2 whose release id is in the skip set is passed over by a
`continue` that never writes the checkpoint file, so the persisted
checkpoint stays at 1 instead of advancing to the item's position 2. -/
theorem claim_C1_counterexample :
    loopBody Fixtures.env 0 [30] Fixtures.stateMid (2, Fixtures.itemSkip) =
      Fixtures.stateMid ∧
    (loopBody Fixtures.env 0 [30] Fixtures.stateMid (2, Fixtures.itemSkip)).checkpoint ≠ 2 := by
  constructor <;> decide

/-- Claim C1 (amended): for every item at or past the resume index whose
release id is not in the skip set — whether it succeeds, is served from
cache, or fails permanently inside `process_item` — the loop body writes
the item's zero-based index to the checkpoint file before moving on;
items whose release id is in the skip set leave the whole state, the
checkpoint included, unchanged. -/
theorem claim_C1_checkpoint_advance (e : Env) (L : Nat) (skipSet : List Nat)
    (st : MainState) (n : Nat) (item : Item) :
    (L ≤ n → item.releaseId ∉ skipSet →
      (loopBody e L skipSet st (n, item)).checkpoint = n) ∧
    (item.releaseId ∈ skipSet → loopBody e L skipSet st (n, item) = st) := by
  constructor
  · intro hL hskip
    unfold loopBody
    simp only [Nat.not_lt.mpr hL, if_false, hskip, if_neg]
    split
    · rfl
    · split <;> rfl
  · intro hskip
    unfold loopBody
    by_cases h : n < L
    · simp [h]
    · simp [h, hskip]

/-- Claim C1 witness: the third item of a three-item collection fails
permanently (its primary fetch raises); the checkpoint is still written
with its index, 2. -/
theorem claim_C1_witness :
    (loopBody Fixtures.env 0 [] Fixtures.stateMid (2, Fixtures.itemFail)).checkpoint = 2 :=
  (claim_C1_checkpoint_advance Fixtures.env 0 [] Fixtures.stateMid 2
    Fixtures.itemFail).1 (by decide) (by decide)

/-- Claim C3: when a record for the release id is already in the store,
`process_item` returns exactly the stored record, issues no network
call, emits nothing, and leaves the store (and the artist dedup set)
untouched. -/
theorem claim_C3_cache_idempotence (e : Env) (item : Item) (db : Store)
    (pa : List Nat) (r : Record)
    (h : db.get_release item.releaseId = some r) :
    process_item e item db pa =
      { result := some r, store := db, processedArtists := pa,
        emissions := [], calls := [] } := by
  simp [process_item, h]

/-- Claim C3 witness: re-processing the already-cached release 9 hands
back the stored record with no fetch and no store change. -/
theorem claim_C3_witness :
    process_item Fixtures.env Fixtures.itemCached Fixtures.cachedStore [] =
      { result := some Fixtures.cachedRec, store := Fixtures.cachedStore,
        processedArtists := [], emissions := [], calls := [] } :=
  claim_C3_cache_idempotence Fixtures.env Fixtures.itemCached
    Fixtures.cachedStore [] Fixtures.cachedRec (by rfl)

/-- Claim C5 (the code, not the claim): an uncached item by the
sentinel artist `Various` is indeed never looked up in the artist
providers (the only call is the primary release fetch), but the item is
*not* processed and persisted normally: building the output dictionary
subscripts the absent artist info, the exception handler adds the
release to the skip file, and nothing is stored. -/
theorem claim_C5_various_crash :
    (process_item Fixtures.env Fixtures.variousItem Fixtures.store0 []).calls =
      [NetCall.primary 501] ∧
    (process_item Fixtures.env Fixtures.variousItem Fixtures.store0 []).result = none ∧
    (process_item Fixtures.env Fixtures.variousItem Fixtures.store0 []).store.releases = [] ∧
    (process_item Fixtures.env Fixtures.variousItem Fixtures.store0 []).store.skipFile = [501] := by
  refine ⟨by decide, by decide, by decide, by decide⟩

/-- Claim C6 counterexample: the artist has two narrative sources, an
Apple Music biography of length 10 and a Wikipedia summary of length 50;
the persisted record's narrative field equals the ten-character Apple
text — the longer candidate loses, because the Apple biography
overwrites the Wikipedia summary unconditionally. -/
theorem claim_C6_counterexample :
    ((process_item Fixtures.env Fixtures.itemBio Fixtures.store0 []).result.map
        Record.wikipediaSummary) = some (some Fixtures.bio10) ∧
    Fixtures.bio10.length = 10 ∧ Fixtures.wiki50.length = 50 ∧
    ((process_item Fixtures.env Fixtures.itemBio Fixtures.store0 []).result.map
        Record.wikipediaSummary) ≠ some (some Fixtures.wiki50) := by
  refine ⟨by decide, by decide, by decide, by decide⟩

/-- Claim C6 (amended): the artist-page summary really is decided by
length — between the tidied Discogs profile and the tidied Wikipedia
summary, `create_artist_markdown_file` keeps the longer text (ties go
to the profile); the length-based choice does not extend to the Apple
Music biography, which displaces the Wikipedia summary in the stored
record regardless of length. -/
theorem claim_C6_longer_text_wins (p w : String) :
    (chooseSummary p w = tidy_text p ∨ chooseSummary p w = tidy_text w) ∧
    (chooseSummary p w).length =
      max (tidy_text p).length (tidy_text w).length := by
  have e1 : chooseSummary p w =
      if (tidy_text p).length < (tidy_text w).length then tidy_text w
      else tidy_text p := rfl
  by_cases h : (tidy_text p).length < (tidy_text w).length
  · rw [e1, if_pos h]
    exact ⟨Or.inr rfl, (Nat.max_eq_right (Nat.le_of_lt h)).symm⟩
  · rw [e1, if_neg h]
    exact ⟨Or.inl rfl, (Nat.max_eq_left (Nat.le_of_not_lt h)).symm⟩

/-- Claim C8 (the code, not the claim): rate limiting is never retried.
A `Throttled(retryAfter=5)` answer to the per-item release fetch is an
exception inside `process_item`'s `try`, so the blanket handler
skip-lists the release and stores nothing, and the surrounding
`while True` handler makes exactly one attempt with no retry and no
sleep — its dedicated 429 branch is unreachable.  A
`Throttled(retryAfter=5)` answer to the initial collection listing is
likewise re-raised with zero retries and zero sleep. -/
theorem claim_C8_throttled_skipped :
    (retryLoop Fixtures.env Fixtures.throttledItem Fixtures.store0 []).attempts = 1 ∧
    (retryLoop Fixtures.env Fixtures.throttledItem Fixtures.store0 []).sleepTime = 0 ∧
    (retryLoop Fixtures.env Fixtures.throttledItem Fixtures.store0 []).result = none ∧
    (retryLoop Fixtures.env Fixtures.throttledItem Fixtures.store0 []).store.skipFile = [601] ∧
    (retryLoop Fixtures.env Fixtures.throttledItem Fixtures.store0 []).store.releases = [] ∧
    (fetchCollection 10 (CollectionResponse.throttled (some 5))).retries = 0 ∧
    (fetchCollection 10 (CollectionResponse.throttled (some 5))).sleepTime = 0 := by
  refine ⟨rfl, rfl, by decide, by decide, by decide, rfl, rfl⟩

/-! ### Structural lemmas about `process_item`, `retryLoop` and the
item loop, shared by the run-level claims. -/

theorem gai_calls_rid (rid : Nat) (nm : String) (sr : Option ArtistInfo) :
    ∀ c ∈ (get_artist_info rid nm sr).2, c.rid = rid := by
  intro c hc
  unfold get_artist_info at hc
  split at hc
  · simp at hc
  · split at hc
    · simp at hc; subst hc; rfl
    · simp at hc; rcases hc with h | h <;> subst h <;> rfl

/-- Every network call `process_item` issues is tagged with the
processed item's release id. -/
theorem process_item_calls_rid (e : Env) (item : Item) (db : Store) (pa : List Nat) :
    ∀ c ∈ (process_item e item db pa).calls, c.rid = item.releaseId := by
  intro c hc
  unfold process_item get_artist_info at hc
  cases hdb : db.get_release item.releaseId with
  | some r => simp only [hdb] at hc; simp at hc
  | none =>
    cases hp : item.primary with
    | raises =>
      simp only [hdb, hp] at hc
      simp at hc
      subst hc; rfl
    | throttled r =>
      simp only [hdb, hp] at hc
      simp at hc
      subst hc; rfl
    | ok d =>
      simp only [hdb, hp] at hc
      by_cases hv : Py.pyLower d.artistName = "various"
      · simp only [if_pos hv] at hc
        repeat split at hc
        all_goals (cases c <;> simp_all [NetCall.rid])
      · simp only [if_neg hv] at hc
        cases hs : d.artistSearch with
        | none =>
          simp only [hs] at hc
          repeat split at hc
          all_goals (cases c <;> simp_all [NetCall.rid])
        | some ai =>
          simp only [hs] at hc
          repeat split at hc
          all_goals (cases c <;> simp_all [NetCall.rid])

/-- `process_artist` either skips an already-processed artist, fails on
a `None` Wikipedia summary, or emits exactly one page for a
not-yet-processed artist and records the id. -/
theorem process_artist_spec (ai : ArtistInfo) (pa : List Nat) :
    (process_artist ai pa = Except.ok (pa, []) ∧ ai.id ∈ pa) ∨
    (process_artist ai pa = Except.error () ∧ ai.id ∉ pa) ∨
    (∃ s, process_artist ai pa = Except.ok (pa ++ [ai.id], [(ai.id, s)]) ∧ ai.id ∉ pa) := by
  unfold process_artist create_artist_markdown_file
  by_cases h : ai.id ∈ pa
  · left
    exact ⟨if_pos h, h⟩
  · rw [if_neg h]
    cases hw : ai.wikipediaSummary with
    | none => right; left; exact ⟨rfl, h⟩
    | some w => right; right; exact ⟨chooseSummary ai.profile w, rfl, h⟩

/-- One `process_item` call either emits no artist page and leaves the
dedup set alone, or emits exactly one page for an artist id that was
not yet in the dedup set and appends that id. -/
theorem process_item_emit_spec (e : Env) (item : Item) (db : Store) (pa : List Nat) :
    ((process_item e item db pa).emissions = [] ∧
      (process_item e item db pa).processedArtists = pa) ∨
    (∃ a s, (process_item e item db pa).emissions = [(a, s)] ∧ a ∉ pa ∧
      (process_item e item db pa).processedArtists = pa ++ [a]) := by
  unfold process_item
  cases hdb : db.get_release item.releaseId with
  | some r =>
    simp only [hdb]
    left; exact ⟨by trivial, by trivial⟩
  | none =>
    cases hp : item.primary with
    | raises =>
      simp only [hdb, hp]
      left; exact ⟨by trivial, by trivial⟩
    | throttled r =>
      simp only [hdb, hp]
      left; exact ⟨by trivial, by trivial⟩
    | ok d =>
      simp only [hdb, hp]
      cases hg : (get_artist_info item.releaseId d.artistName d.artistSearch).1 with
      | none =>
        simp only [hg]
        left; exact ⟨by trivial, by trivial⟩
      | some ai =>
        simp only [hg]
        rcases process_artist_spec ai pa with ⟨hpa, hmem⟩ | ⟨hpa, hmem⟩ | ⟨s, hpa, hmem⟩ <;>
          simp only [hpa]
        · left; exact ⟨by trivial, by trivial⟩
        · left; exact ⟨by trivial, by trivial⟩
        · right; exact ⟨ai.id, s, by trivial, hmem, by trivial⟩

/-- The retry wrapper is transparent: its outcome is exactly the single
`process_item` outcome. -/
theorem retryLoop_spec (e : Env) (item : Item) (db : Store) (pa : List Nat) :
    (retryLoop e item db pa).result = (process_item e item db pa).result ∧
    (retryLoop e item db pa).store = (process_item e item db pa).store ∧
    (retryLoop e item db pa).processedArtists =
      (process_item e item db pa).processedArtists ∧
    (retryLoop e item db pa).emissions = (process_item e item db pa).emissions ∧
    (retryLoop e item db pa).calls = (process_item e item db pa).calls :=
  ⟨rfl, rfl, rfl, rfl, rfl⟩

/-- Every call issued through the retry wrapper is tagged with the
item's release id. -/
theorem retryLoop_calls_rid (e : Env) (item : Item) (db : Store) (pa : List Nat) :
    ∀ c ∈ (retryLoop e item db pa).calls, c.rid = item.releaseId := by
  intro c hc
  rw [(retryLoop_spec e item db pa).2.2.2.2] at hc
  exact process_item_calls_rid e item db pa c hc

/-- An item below the resume index is fast-forwarded: no state change. -/
theorem loopBody_fastforward (e : Env) (L : Nat) (skipSet : List Nat)
    (st : MainState) (n : Nat) (item : Item) (h : n < L) :
    loopBody e L skipSet st (n, item) = st := by
  unfold loopBody
  exact if_pos h

/-- An item whose release id is in the loaded skip set leaves the whole
state unchanged. -/
theorem loopBody_skip (e : Env) (L : Nat) (skipSet : List Nat)
    (st : MainState) (n : Nat) (item : Item) (h : item.releaseId ∈ skipSet) :
    loopBody e L skipSet st (n, item) = st := by
  unfold loopBody
  by_cases hL : n < L
  · exact if_pos hL
  · rw [if_neg hL]
    exact if_pos h

/-- The loop body only adds calls tagged with the current item's
release id: the calls recorded for any other release id are untouched. -/
theorem callsFor_loopBody (e : Env) (L : Nat) (skipSet : List Nat)
    (st : MainState) (n : Nat) (item : Item) (rid : Nat)
    (h : item.releaseId ≠ rid) :
    callsFor rid (loopBody e L skipSet st (n, item)).calls =
      callsFor rid st.calls := by
  unfold loopBody
  by_cases hL : n < L
  · rw [if_pos hL]
  · rw [if_neg hL]
    by_cases hsk : item.releaseId ∈ skipSet
    · rw [if_pos hsk]
    · rw [if_neg hsk]
      have hnil :
          List.filter (fun c => c.rid == rid)
            (retryLoop e item st.store st.processedArtists).calls = [] := by
        rw [List.filter_eq_nil_iff]
        intro c hc
        have := retryLoop_calls_rid e item st.store st.processedArtists c hc
        simp [this, h]
      cases hdb : st.store.get_release item.releaseId with
      | some r => simp only [hdb]
      | none =>
        simp only [hdb]
        split <;>
          (unfold callsFor
           rw [show st.calls ++
               (retryLoop e item st.store st.processedArtists).calls =
               st.calls ++ _ from rfl]
           rw [List.filter_append, hnil]
           exact List.append_nil _)

/-- The loop body preserves the artist-emission invariant: at most one
page per artist id, and an emitted artist id is in the dedup set. -/
theorem loopBody_emit_inv (aid : Nat) (e : Env) (L : Nat) (skipSet : List Nat)
    (st : MainState) (n : Nat) (item : Item)
    (h1 : countEmissions aid st.emissions ≤ 1)
    (h2 : countEmissions aid st.emissions ≠ 0 → aid ∈ st.processedArtists) :
    countEmissions aid (loopBody e L skipSet st (n, item)).emissions ≤ 1 ∧
    (countEmissions aid (loopBody e L skipSet st (n, item)).emissions ≠ 0 →
      aid ∈ (loopBody e L skipSet st (n, item)).processedArtists) := by
  unfold loopBody
  by_cases hL : n < L
  · rw [if_pos hL]; exact ⟨h1, h2⟩
  · rw [if_neg hL]
    by_cases hsk : item.releaseId ∈ skipSet
    · rw [if_pos hsk]; exact ⟨h1, h2⟩
    · rw [if_neg hsk]
      cases hdb : st.store.get_release item.releaseId with
      | some r => simp only [hdb]; exact ⟨h1, h2⟩
      | none =>
        simp only [hdb]
        have hre :=
          (retryLoop_spec e item st.store st.processedArtists).2.2.1
        have hree :=
          (retryLoop_spec e item st.store st.processedArtists).2.2.2.1
        have key :
            countEmissions aid (st.emissions ++
              (retryLoop e item st.store st.processedArtists).emissions) ≤ 1 ∧
            (countEmissions aid (st.emissions ++
              (retryLoop e item st.store st.processedArtists).emissions) ≠ 0 →
              aid ∈ (retryLoop e item st.store st.processedArtists).processedArtists) := by
          rw [hree, hre]
          rcases process_item_emit_spec e item st.store st.processedArtists with
            ⟨he, hp⟩ | ⟨a, s, he, hna, hp⟩
          · rw [he, hp, List.append_nil]
            exact ⟨h1, h2⟩
          · rw [he, hp]
            unfold countEmissions at *
            rw [List.filter_append, List.length_append]
            by_cases haid : a = aid
            · subst haid
              have hz : (List.filter (fun ey => ey.1 == a) st.emissions).length = 0 := by
                by_contra hnz
                exact hna (h2 hnz)
              simp only [hz]
              have hone : (List.filter (fun ey => ey.1 == a) [(a, s)]).length = 1 := by
                simp
              rw [hone]
              refine ⟨by omega, fun _ => ?_⟩
              exact List.mem_append.mpr (Or.inr (List.mem_singleton.mpr rfl))
            · have hzz : (List.filter (fun ey => ey.1 == aid) [(a, s)]).length = 0 := by
                simp [haid]
              rw [hzz]
              refine ⟨by omega, fun hne => ?_⟩
              exact List.mem_append.mpr (Or.inl (h2 (by omega)))
        split
        · exact key
        · exact key

/-- A walk whose indices all lie below the resume index changes
nothing. -/
theorem runItems_fastforward (e : Env) (L : Nat) (skipSet : List Nat) :
    ∀ (items : List Item) (n : Nat) (st : MainState),
      n + items.length ≤ L → runItems e L skipSet n items st = st := by
  intro items
  induction items with
  | nil => intro n st _; rfl
  | cons it rest ih =>
    intro n st h
    have hlen : (it :: rest).length = rest.length + 1 := by simp
    have hn : n < L := by rw [hlen] at h; omega
    show runItems e L skipSet (n + 1) rest (loopBody e L skipSet st (n, it)) = st
    rw [loopBody_fastforward e L skipSet st n it hn]
    exact ih (n + 1) st (by rw [hlen] at h; omega)

/-- Claim C2: a release id in the loaded skip set receives zero network
calls during the whole run — the call log for that id is exactly what it
was before the run — and the loop body passes over any item with that
id without touching the run state at all, on this run and (since the
loop consults only the skip set it was started with) on every future
run whose skip set still contains the id. -/
theorem claim_C2_skip_zero_calls (e : Env) (L : Nat) (skipSet : List Nat)
    (items : List Item) (st : MainState) (rid : Nat) (h : rid ∈ skipSet) :
    callsFor rid (runMain e L skipSet items st).calls = callsFor rid st.calls ∧
    (∀ (st' : MainState) (n : Nat) (item : Item), item.releaseId = rid →
      loopBody e L skipSet st' (n, item) = st') := by
  constructor
  · unfold runMain
    have main : ∀ (its : List Item) (n : Nat) (s : MainState),
        callsFor rid (runItems e L skipSet n its s).calls = callsFor rid s.calls := by
      intro its
      induction its with
      | nil => intro n s; rfl
      | cons it rest ih =>
        intro n s
        show callsFor rid
          (runItems e L skipSet (n + 1) rest (loopBody e L skipSet s (n, it))).calls = _
        rw [ih (n + 1) (loopBody e L skipSet s (n, it))]
        by_cases he : it.releaseId = rid
        · rw [loopBody_skip e L skipSet s n it (by rw [he]; exact h)]
        · exact callsFor_loopBody e L skipSet s n it rid he
    exact main items 0 st
  · intro st' n item heq
    exact loopBody_skip e L skipSet st' n item (by rw [heq]; exact h)

/-- Claim C2 witness: with release 30 in the skip set, a concrete run
over two items (one of them release 30) records no call for id 30, and
the loop body leaves the state untouched on the skipped item. -/
theorem claim_C2_witness :
    callsFor 30 (runMain Fixtures.env 0 [30]
      [Fixtures.itemA, Fixtures.itemSkip] Fixtures.state0).calls =
      callsFor 30 Fixtures.state0.calls ∧
    loopBody Fixtures.env 0 [30] Fixtures.state0 (1, Fixtures.itemSkip) =
      Fixtures.state0 :=
  ⟨(claim_C2_skip_zero_calls Fixtures.env 0 [30]
      [Fixtures.itemA, Fixtures.itemSkip] Fixtures.state0 30 (by decide)).1,
   (claim_C2_skip_zero_calls Fixtures.env 0 [30]
      [Fixtures.itemA, Fixtures.itemSkip] Fixtures.state0 30 (by decide)).2
     Fixtures.state0 1 Fixtures.itemSkip (by decide)⟩

/-- Claim C4 counterexample: two uncached releases by the same artist
(id 7) are processed in one run; the artist page is emitted once, but
the Discogs artist lookup is performed for *both* items — the second
occurrence of the contributor does trigger a contributor fetch. -/
theorem claim_C4_counterexample :
    (runMain Fixtures.env 0 [] [Fixtures.itemA, Fixtures.itemB]
        Fixtures.state0).emissions.length = 1 ∧
    (artistFetches (runMain Fixtures.env 0 [] [Fixtures.itemA, Fixtures.itemB]
        Fixtures.state0).calls).length = 2 := by
  constructor <;> decide

/-- Claim C4 (amended): the Artist Deduplicator guards only the
*emission*: in any run starting with no emitted pages, each artist id
has at most one artist page written; the contributor lookup itself is
not deduplicated and runs for every non-cached item (see the
counterexample). -/
theorem claim_C4_emit_once (e : Env) (L : Nat) (skipSet : List Nat)
    (items : List Item) (st : MainState) (aid : Nat)
    (h1 : st.emissions = []) :
    countEmissions aid (runMain e L skipSet items st).emissions ≤ 1 := by
  unfold runMain
  have main : ∀ (its : List Item) (n : Nat) (s : MainState),
      countEmissions aid s.emissions ≤ 1 →
      (countEmissions aid s.emissions ≠ 0 → aid ∈ s.processedArtists) →
      countEmissions aid (runItems e L skipSet n its s).emissions ≤ 1 := by
    intro its
    induction its with
    | nil => intro n s ha _; exact ha
    | cons it rest ih =>
      intro n s ha hb
      have hx := loopBody_emit_inv aid e L skipSet s n it ha hb
      exact ih (n + 1) (loopBody e L skipSet s (n, it)) hx.1 hx.2
  refine main items 0 st ?_ ?_
  · rw [h1]; exact Nat.zero_le 1
  · rw [h1]; intro hne; exact absurd rfl hne

/-- Claim C4 witness: in the concrete two-item run by one artist, the
number of pages emitted for artist 7 is at most one. -/
theorem claim_C4_witness :
    countEmissions 7 (runMain Fixtures.env 0 []
      [Fixtures.itemA, Fixtures.itemB] Fixtures.state0).emissions ≤ 1 :=
  claim_C4_emit_once Fixtures.env 0 [] [Fixtures.itemA, Fixtures.itemB]
    Fixtures.state0 7 (by decide)

/-- Claim C9: re-running over an unchanged collection with the loaded
checkpoint equal to the collection size fast-forwards every position:
no network call is issued, the persistent store and every output are
unchanged, and on completion the checkpoint file is reset to zero. -/
theorem claim_C9_rerun_noop (e : Env) (skipSet : List Nat)
    (items : List Item) (st : MainState) :
    (runMain e items.length skipSet items st).store = st.store ∧
    (runMain e items.length skipSet items st).calls = st.calls ∧
    (runMain e items.length skipSet items st).emissions = st.emissions ∧
    (runMain e items.length skipSet items st).albums = st.albums ∧
    (runMain e items.length skipSet items st).checkpoint = 0 := by
  unfold runMain
  rw [runItems_fastforward e items.length skipSet items 0 st (by omega)]
  exact ⟨rfl, rfl, rfl, rfl, rfl⟩

/-! ### Candidate-selection lemmas (claim C7) -/

/-- A fold that at each step keeps either the accumulator or the new
element stays inside the candidate list. -/
theorem foldl_choice_mem (step : AMCandidate → AMCandidate → AMCandidate)
    (hstep : ∀ b x, step b x = x ∨ step b x = b) :
    ∀ (rest : List AMCandidate) (c : AMCandidate),
      rest.foldl step c ∈ c :: rest := by
  intro rest
  induction rest with
  | nil => intro c; exact List.mem_singleton.mpr rfl
  | cons x t ih =>
    intro c
    show t.foldl step (step c x) ∈ c :: x :: t
    rcases hstep c x with hx | hb
    · rw [hx]
      rcases List.mem_cons.mp (ih x) with h1 | h2
      · exact List.mem_cons.mpr (Or.inr (List.mem_cons.mpr (Or.inl h1)))
      · exact List.mem_cons.mpr (Or.inr (List.mem_cons.mpr (Or.inr h2)))
    · rw [hb]
      rcases List.mem_cons.mp (ih c) with h1 | h2
      · exact List.mem_cons.mpr (Or.inl h1)
      · exact List.mem_cons.mpr (Or.inr (List.mem_cons.mpr (Or.inr h2)))

/-- The similarity maximum is one of the candidates. -/
theorem pickBySimilarity_mem (q : String) (l : List AMCandidate)
    (c : AMCandidate) (h : pickBySimilarity q l = some c) : c ∈ l := by
  cases l with
  | nil => exact absurd h (by simp [pickBySimilarity])
  | cons x rest =>
    simp only [pickBySimilarity, Option.some.injEq] at h
    subst h
    exact foldl_choice_mem _ (fun b y => by split <;> simp) rest x

namespace Fixtures

/-- A candidate whose name carries a denylisted marker yet has the best
similarity to the query `"a"`. -/
def tributeCand : AMCandidate := { name := "a tribute", artistName := "tb" }

/-- A candidate with no similarity to the query `"a"`. -/
def otherCand : AMCandidate := { name := "z", artistName := "zz" }

/-- A candidate matching the query `"a"` exactly (case-insensitively). -/
def exactCand : AMCandidate := { name := "A", artistName := "x" }

end Fixtures

/-- Claim C7 counterexample: `get_apple_music_data` — the Apple Music
client `process_item` actually calls — ranks purely by similarity: out
of two candidates it selects `"a tribute"`, a name containing a
denylisted marker, which the claimed policy would have excluded before
ranking. -/
theorem claim_C7_counterexample :
    Scraper.get_apple_music_data "a" [Fixtures.tributeCand, Fixtures.otherCand] =
      some Fixtures.tributeCand ∧
    Utils.isDenied Fixtures.tributeCand.name = true := by
  constructor <;> decide

/-- Claim C7 (amended): the described policy is implemented by
`utils.search_apple_music` (not by `get_apple_music_data`): whenever it
returns a match, that match never carries a denylisted marker, and if
any non-denylisted candidate matches the query exactly
(case-insensitively) then the returned match is exact. -/
theorem claim_C7_search_policy (query : String) (results : List AMCandidate)
    (r : AMCandidate) (h : Utils.search_apple_music query results = some r) :
    Utils.isDenied r.name = false ∧
    ((∃ x ∈ results, Utils.isDenied x.name = false ∧
        Py.pyLower x.name = Py.pyLower query) →
      Py.pyLower r.name = Py.pyLower query) := by
  unfold Utils.search_apple_music at h
  by_cases h0 : results.isEmpty
  · rw [if_pos h0] at h
    exact absurd h (by simp)
  · rw [if_neg h0] at h
    by_cases h1 : (results.filter fun x => !(Utils.isDenied x.name)).isEmpty
    · rw [if_pos h1] at h
      exact absurd h (by simp)
    · rw [if_neg h1] at h
      cases hex : (results.filter fun x => !(Utils.isDenied x.name)).filter
          (fun x => Py.pyLower x.name = Py.pyLower query) with
      | cons ehead etail =>
        simp only [hex, Option.some.injEq] at h
        have hmem : ehead ∈ (results.filter fun x => !(Utils.isDenied x.name)).filter
            (fun x => Py.pyLower x.name = Py.pyLower query) := by
          rw [hex]; exact List.mem_cons_self _ _
        have hsplit := List.mem_filter.mp hmem
        have hden := (List.mem_filter.mp hsplit.1).2
        rw [← h]
        refine ⟨by simpa using hden, fun _ => by simpa using hsplit.2⟩
      | nil =>
        simp only [hex] at h
        have hmem := pickBySimilarity_mem query _ r h
        have hden := (List.mem_filter.mp hmem).2
        refine ⟨by simpa using hden, fun hx => ?_⟩
        exfalso
        obtain ⟨x, hxr, hxd, hxe⟩ := hx
        have hxf : x ∈ (results.filter fun y => !(Utils.isDenied y.name)) :=
          List.mem_filter.mpr ⟨hxr, by simp [hxd]⟩
        have : x ∈ (results.filter fun y => !(Utils.isDenied y.name)).filter
            (fun y => Py.pyLower y.name = Py.pyLower query) :=
          List.mem_filter.mpr ⟨hxf, by simpa using hxe⟩
        rw [hex] at this
        exact absurd this (List.not_mem_nil x)

/-- Claim C7 witness: on a singleton result list whose name matches the
query exactly, `search_apple_music` returns it, it is not denylisted,
and the exact-match guarantee holds. -/
theorem claim_C7_witness :
    Utils.isDenied Fixtures.exactCand.name = false ∧
    ((∃ x ∈ [Fixtures.exactCand], Utils.isDenied x.name = false ∧
        Py.pyLower x.name = Py.pyLower "a") →
      Py.pyLower Fixtures.exactCand.name = Py.pyLower "a") :=
  claim_C7_search_policy "a" [Fixtures.exactCand] Fixtures.exactCand (by decide)

namespace Utils

/-- The no-adjacent-hyphens relation on output characters. -/
def dashFree (a b : Char) : Prop := ¬(a = '-' ∧ b = '-')

theorem charset_toNat {c : Char} (h : isAllowed c = true ∨ c = '-') :
    c.toNat = 45 ∨ (48 ≤ c.toNat ∧ c.toNat ≤ 57) ∨
      (97 ≤ c.toNat ∧ c.toNat ≤ 122) := by
  rcases h with h | h
  · unfold isAllowed at h
    simp only [Bool.or_eq_true, Bool.and_eq_true, decide_eq_true_eq] at h
    rcases h with h | h
    · right; right; exact h
    · right; left; exact h
  · subst h; left; rfl

theorem allowed_ne_dash {c : Char} (h : isAllowed c = true) : c ≠ '-' := by
  intro he
  subst he
  simp [isAllowed] at h

theorem charset_not_space {c : Char} (h : isAllowed c = true ∨ c = '-') :
    Py.isPySpace c = false := by
  have ht := charset_toNat h
  unfold Py.isPySpace
  simp only [Bool.or_eq_false_iff, decide_eq_false_iff_not]
  omega

theorem charset_ne_rparen {c : Char} (h : isAllowed c = true ∨ c = '-') :
    c ≠ ')' := by
  intro he
  subst he
  have := charset_toNat h
  simp at this

theorem charset_lower_fixed {c : Char} (h : isAllowed c = true ∨ c = '-') :
    Py.lowerChar c = c := by
  have ht := charset_toNat h
  unfold Py.lowerChar
  rw [if_neg]
  simp only [Bool.and_eq_true, decide_eq_true_eq, not_and]
  omega

theorem charset_small {c : Char} (h : isAllowed c = true ∨ c = '-') :
    c.toNat < 128 := by
  have := charset_toNat h
  omega

end Utils

namespace Utils

theorem dashAux_chars : ∀ (l : List Char) (b : Bool) (c : Char),
    c ∈ dashAux b l → isAllowed c = true ∨ c = '-' := by
  intro l
  induction l with
  | nil => intro b c hc; simp [dashAux] at hc
  | cons x rest ih =>
    intro b c hc
    unfold dashAux at hc
    by_cases hx : isAllowed x = true
    · rw [if_pos hx] at hc
      rcases List.mem_cons.mp hc with h | h
      · subst h; exact Or.inl hx
      · exact ih false c h
    · rw [if_neg hx] at hc
      cases b with
      | true =>
        rw [if_pos rfl] at hc
        exact ih true c hc
      | false =>
        rw [if_neg Bool.false_ne_true] at hc
        rcases List.mem_cons.mp hc with h | h
        · exact Or.inr h
        · exact ih true c h

theorem dashAux_true_head : ∀ (l : List Char) (c : Char),
    (dashAux true l).head? = some c → isAllowed c = true := by
  intro l
  induction l with
  | nil => intro c hc; simp [dashAux] at hc
  | cons x rest ih =>
    intro c hc
    unfold dashAux at hc
    by_cases hx : isAllowed x = true
    · rw [if_pos hx] at hc
      simp only [List.head?_cons, Option.some.injEq] at hc
      subst hc
      exact hx
    · rw [if_neg hx, if_pos rfl] at hc
      exact ih c hc

theorem dashAux_chain : ∀ (l : List Char) (b : Bool),
    List.Chain' dashFree (dashAux b l) := by
  intro l
  induction l with
  | nil => intro b; simp [dashAux]
  | cons x rest ih =>
    intro b
    unfold dashAux
    by_cases hx : isAllowed x = true
    · rw [if_pos hx]
      refine List.chain'_cons'.mpr ⟨?_, ih false⟩
      intro y _ hcon
      exact allowed_ne_dash hx hcon.1
    · rw [if_neg hx]
      cases b with
      | true =>
        rw [if_pos rfl]
        exact ih true
      | false =>
        rw [if_neg Bool.false_ne_true]
        refine List.chain'_cons'.mpr ⟨?_, ih true⟩
        intro y hy hcon
        exact allowed_ne_dash (dashAux_true_head rest y hy) hcon.2

theorem dashAux_id : ∀ (l : List Char),
    (∀ c ∈ l, isAllowed c = true ∨ c = '-') →
    List.Chain' dashFree l →
    dashAux false l = l := by
  intro l
  induction l with
  | nil => intro _ _; rfl
  | cons x rest ih =>
    intro hchars hchain
    unfold dashAux
    by_cases hx : isAllowed x = true
    · rw [if_pos hx]
      have := ih (fun c hc => hchars c (List.mem_cons_of_mem x hc)) hchain.tail
      rw [this]
    · have hx' : x = '-' :=
        (hchars x (List.mem_cons_self x rest)).resolve_left hx
      rw [if_neg hx, if_neg Bool.false_ne_true]
      have hrest : dashAux true rest = rest := by
        cases rest with
        | nil => rfl
        | cons y t =>
          have hy : isAllowed y = true := by
            have hR := (List.chain'_cons'.mp hchain).1 y (by simp)
            have hy' : y ≠ '-' := fun he => hR ⟨hx', he⟩
            exact (hchars y (List.mem_cons_of_mem x (List.mem_cons_self y t))).resolve_right hy'
          have hfalse : dashAux false (y :: t) = y :: t :=
            ih (fun c hc => hchars c (List.mem_cons_of_mem x hc)) hchain.tail
          unfold dashAux at hfalse ⊢
          rw [if_pos hy] at hfalse ⊢
          exact hfalse
      rw [hrest, hx']

end Utils

namespace Utils

theorem lookup_none_of_big :
    ∀ (L : List (Char × List Char)), (∀ p ∈ L, 223 ≤ p.1.toNat) →
      ∀ c : Char, c.toNat < 128 → L.lookup c = none := by
  intro L
  induction L with
  | nil => intro _ c _; rfl
  | cons p t ih =>
    intro hL c hc
    have hk : (c == p.1) = false := by
      apply beq_eq_false_iff_ne.mpr
      intro he
      have := hL p (List.mem_cons_self p t)
      rw [← he] at this
      omega
    show List.lookup c (p :: t) = none
    cases p with
    | mk k v =>
      simp only [List.lookup, hk]
      exact ih (fun q hq => hL q (List.mem_cons_of_mem _ hq)) c hc

theorem replacements_keys_big : ∀ p ∈ replacements, 223 ≤ p.1.toNat := by decide

theorem applyReplacements_id (l : List Char)
    (h : ∀ c ∈ l, isAllowed c = true ∨ c = '-') :
    applyReplacements l = l := by
  induction l with
  | nil => rfl
  | cons x rest ih =>
    unfold applyReplacements
    rw [List.flatMap_cons]
    have hx : replacements.lookup x = none :=
      lookup_none_of_big replacements replacements_keys_big x
        (charset_small (h x (List.mem_cons_self x rest)))
    rw [hx]
    show [x] ++ applyReplacements rest = x :: rest
    rw [ih (fun c hc => h c (List.mem_cons_of_mem x hc))]
    rfl

theorem map_lowerChar_id (l : List Char)
    (h : ∀ c ∈ l, isAllowed c = true ∨ c = '-') :
    l.map Py.lowerChar = l := by
  induction l with
  | nil => rfl
  | cons x rest ih =>
    rw [List.map_cons, charset_lower_fixed (h x (List.mem_cons_self x rest)),
      ih (fun c hc => h c (List.mem_cons_of_mem x hc))]

theorem removeTrailingParen_id (l : List Char)
    (h : ∀ c ∈ l, isAllowed c = true ∨ c = '-') :
    removeTrailingParen l = l := by
  unfold removeTrailingParen dropParenSuffixRev
  have hrev : ∀ c ∈ l.reverse, isAllowed c = true ∨ c = '-' := by
    intro c hc; exact h c (List.mem_reverse.mp hc)
  have hdw : l.reverse.dropWhile Py.isPySpace = l.reverse := by
    cases hr : l.reverse with
    | nil => rfl
    | cons c rest =>
      rw [List.dropWhile_cons, if_neg]
      rw [charset_not_space (hrev c (by rw [hr]; exact List.mem_cons_self c rest))]
      exact Bool.false_ne_true
  rw [hdw]
  split
  · next rest heq =>
    exact absurd rfl
      (charset_ne_rparen (hrev ')' (by rw [heq]; exact List.mem_cons_self _ _)))
  · exact List.reverse_reverse l

end Utils

namespace Utils

theorem head?_of_starting_part {l₁ l₂ : List Char} (h : l₁ <+: l₂) {c : Char}
    (hc : l₁.head? = some c) : l₂.head? = some c := by
  obtain ⟨t, rfl⟩ := h
  rw [List.head?_append, hc]
  rfl

theorem head?_dropWhile_false (p : Char → Bool) (l : List Char) {c : Char}
    (h : (l.dropWhile p).head? = some c) : p c = false := by
  have hne : l.dropWhile p ≠ [] := by
    intro he; rw [he] at h; exact absurd h (by simp)
  have hh := List.head_dropWhile_not p l hne
  rw [List.head?_eq_head hne, Option.some.injEq] at h
  rw [← h]
  exact hh

theorem trimDashes_subset (l : List Char) {c : Char}
    (h : c ∈ trimDashes l) : c ∈ l := by
  have h1 : trimDashes l = List.rdropWhile isDash (l.dropWhile isDash) := rfl
  rw [h1] at h
  have hpre := List.rdropWhile_prefix isDash (l.dropWhile isDash)
  exact (List.dropWhile_suffix isDash).subset (hpre.subset h)

theorem trimDashes_chain {l : List Char} (h : List.Chain' dashFree l) :
    List.Chain' dashFree (trimDashes l) := by
  have h1 : trimDashes l = List.rdropWhile isDash (l.dropWhile isDash) := rfl
  rw [h1]
  have hpre := List.rdropWhile_prefix isDash (l.dropWhile isDash)
  exact List.Chain'.prefix (h.suffix (List.dropWhile_suffix isDash)) hpre

theorem trimDashes_head {l : List Char} {c : Char}
    (h : (trimDashes l).head? = some c) : c ≠ '-' := by
  have h1 : trimDashes l = List.rdropWhile isDash (l.dropWhile isDash) := rfl
  rw [h1] at h
  have hpre := List.rdropWhile_prefix isDash (l.dropWhile isDash)
  have h2 : (l.dropWhile isDash).head? = some c :=
    head?_of_starting_part hpre h
  have h3 := head?_dropWhile_false isDash l h2
  unfold isDash at h3
  simpa using h3

theorem trimDashes_last {l : List Char} {c : Char}
    (h : (trimDashes l).getLast? = some c) : c ≠ '-' := by
  have h1 : trimDashes l = List.rdropWhile isDash (l.dropWhile isDash) := rfl
  rw [h1] at h
  have hne : List.rdropWhile isDash (l.dropWhile isDash) ≠ [] := by
    intro he; rw [he] at h; exact absurd h (by simp)
  have h2 := List.rdropWhile_last_not isDash (l.dropWhile isDash) hne
  rw [List.getLast?_eq_getLast _ hne, Option.some.injEq] at h
  rw [← h]
  intro he
  exact h2 (by rw [he]; decide)

theorem trimDashes_id (l : List Char)
    (hhead : ∀ c, l.head? = some c → c ≠ '-')
    (hlast : ∀ c, l.getLast? = some c → c ≠ '-') :
    trimDashes l = l := by
  have hdw : l.dropWhile isDash = l := by
    cases hl : l with
    | nil => rfl
    | cons x t =>
      rw [List.dropWhile_cons, if_neg]
      have := hhead x (by rw [hl]; rfl)
      unfold isDash
      simp [this]
  have h1 : trimDashes l = List.rdropWhile isDash (l.dropWhile isDash) := rfl
  rw [h1, hdw]
  apply List.rdropWhile_eq_self_iff.mpr
  intro hl
  have := hlast (l.getLast hl) (List.getLast?_eq_getLast l hl)
  unfold isDash
  simp [this]

end Utils

namespace Utils

theorem sanitize_slug_data (s : String) :
    (sanitize_slug s).data =
      trimDashes (dashAux false
        (applyReplacements ((removeTrailingParen s.data).map Py.lowerChar))) := rfl

theorem sanitize_slug_good (s : String) :
    (∀ c ∈ (sanitize_slug s).data, isAllowed c = true ∨ c = '-') ∧
    List.Chain' dashFree (sanitize_slug s).data ∧
    (∀ c, (sanitize_slug s).data.head? = some c → c ≠ '-') ∧
    (∀ c, (sanitize_slug s).data.getLast? = some c → c ≠ '-') := by
  rw [sanitize_slug_data]
  refine ⟨?_, ?_, ?_, ?_⟩
  · intro c hc
    exact dashAux_chars _ false c (trimDashes_subset _ hc)
  · exact trimDashes_chain (dashAux_chain _ false)
  · intro c hc; exact trimDashes_head hc
  · intro c hc; exact trimDashes_last hc

theorem sanitize_slug_id_of_good (l : List Char)
    (hchars : ∀ c ∈ l, isAllowed c = true ∨ c = '-')
    (hchain : List.Chain' dashFree l)
    (hhead : ∀ c, l.head? = some c → c ≠ '-')
    (hlast : ∀ c, l.getLast? = some c → c ≠ '-') :
    sanitize_slug ⟨l⟩ = ⟨l⟩ := by
  show String.mk (trimDashes (dashAux false
    (applyReplacements ((removeTrailingParen l).map Py.lowerChar)))) = ⟨l⟩
  rw [removeTrailingParen_id l hchars, map_lowerChar_id l hchars,
    applyReplacements_id l hchars, dashAux_id l hchars hchain,
    trimDashes_id l hhead hlast]

end Utils

/-- Claim C10: `utils.sanitize_slug` returns a string of lowercase
ASCII letters, digits and hyphens only, with no leading or trailing
hyphen, and it is idempotent. -/
theorem claim_C10_sanitize_slug (s : String) :
    (∀ c ∈ (Utils.sanitize_slug s).data,
        Utils.isAllowed c = true ∨ c = '-') ∧
    (∀ c, (Utils.sanitize_slug s).data.head? = some c → c ≠ '-') ∧
    (∀ c, (Utils.sanitize_slug s).data.getLast? = some c → c ≠ '-') ∧
    Utils.sanitize_slug (Utils.sanitize_slug s) = Utils.sanitize_slug s := by
  obtain ⟨h1, h2, h3, h4⟩ := Utils.sanitize_slug_good s
  refine ⟨h1, h3, h4, ?_⟩
  exact Utils.sanitize_slug_id_of_good (Utils.sanitize_slug s).data h1 h2 h3 h4

/-- Claim C10 witness: sanitizing a concrete messy name yields a clean
slug that sanitizes to itself. -/
theorem claim_C10_witness :
    Utils.sanitize_slug (Utils.sanitize_slug "  Hello,  World! (12) ") =
      Utils.sanitize_slug "  Hello,  World! (12) " :=
  (claim_C10_sanitize_slug "  Hello,  World! (12) ").2.2.2
